import Mathlib

/-!
# Jump Cut Hero — verification of the calibration / silence-detection engine

Shallow embedding of the app's recording state machine (`App.tsx`):

* constants (`constants.ts`): `CALIBRATION_TIME_MS`, `SILENCE_DETECTION_TIME_MS`,
  `THRESHOLD_MULTIPLIER`, `FFT_SIZE`;
* the silence classifier (the `averageVolume` / `isSilent` computation in
  `runAudioAnalysis`);
* the noise-floor computation at the end of the calibration window
  (the `setTimeout` body in `startCalibration`);
* the debounced pause/resume controller (`runAudioAnalysis` together with its
  `setTimeout`-based silence timer), modelled as an explicit step machine whose
  timer is a recorded deadline; faithfully to the source, `silenceTimerRef`
  keeps its (stale) handle after the timeout fires, because the timeout
  callback never nulls the ref;
* `stopRecording`, `handleReset`, `cleanup`, and the resource-acquisition
  failure path of `startCalibration`.

Energies are rationals (the source works with IEEE doubles obtained as means of
`Uint8` frequency bins; all the logic here is order-and-arithmetic only, so `ℚ`
is a faithful carrier). Time is in milliseconds as a natural number. The
single-threaded JS event loop is modelled by processing timed events in order
and letting a due, still-scheduled timeout callback run before the event at or
after its deadline.
-/

namespace JumpCut

/-- `constants.ts`: calibration period in milliseconds. -/
def CALIBRATION_TIME_MS : Nat := 3000

/-- `constants.ts`: how long silence must be detected before pausing (ms). -/
def SILENCE_DETECTION_TIME_MS : Nat := 500

/-- `constants.ts`: multiplier applied to the calibrated noise floor. -/
def THRESHOLD_MULTIPLIER : ℚ := 1.8

/-- `constants.ts`: FFT size of the analyser. -/
def FFT_SIZE : Nat := 256

/-- `types.ts`: the app-level recording state (`RecordingState`). -/
inductive RecState where
  | idle
  | calibrating
  | recording
  | paused
  | stopped
deriving DecidableEq, Repr

/-- The result of classifying one live sample. -/
inductive Classification where
  | silent
  | sound
deriving DecidableEq, Repr

/-- The state of the `MediaRecorder` (the capture sink): `recording`,
`paused` or `inactive`. -/
inductive MRState where
  | recording
  | paused
  | inactive
deriving DecidableEq, Repr

/-- A call the controller issues on the capture sink
(`MediaRecorder.start/pause/resume/stop`). -/
inductive SinkAction where
  | start
  | pause
  | resume
  | stop
deriving DecidableEq, Repr

/-- The `setTimeout` handle held in `silenceTimerRef`: its scheduled deadline,
and whether the callback is still scheduled (`live = true`). A fired or
cleared timeout has `live = false`, but the ref still holds the handle unless
the code explicitly nulls it. -/
structure SilenceTimer where
  deadline : Nat
  live : Bool
deriving DecidableEq, Repr

/-- The user-visible message set by the `catch` block of `startCalibration`:
either the orientation/constraint message (`OverconstrainedError`) or the
generic camera/microphone-access message. -/
inductive ErrMsg where
  | orientationUnsupported
  | cameraMicAccess
deriving DecidableEq, Repr

/-- The ways `getUserMedia` can fail: `OverconstrainedError`
(constraint-unsupported) or any other failure (device unavailable /
permission denied). -/
inductive AcqError where
  | overconstrained
  | deviceUnavailable
deriving DecidableEq, Repr

/-- The mutable state of the `App` component: React state plus the refs the
analysis loop works with. -/
structure AppState where
  recordingState : RecState
  videoUrl : Bool
  errorMsg : Option ErrMsg
  mediaRecorder : Option MRState
  chunks : Nat
  streamActive : Bool
  audioContextOpen : Bool
  analyserSet : Bool
  silenceTimer : Option SilenceTimer
  silenceThreshold : ℚ
  animationScheduled : Bool
deriving DecidableEq, Repr

/-- `averageVolume` (App.tsx line 104, and line 198 during calibration): the
mean of the frequency-bin magnitudes,
`dataArray.reduce((acc, val) => acc + val, 0) / dataArray.length`. -/
def averageVolume (bins : List ℚ) : ℚ :=
  bins.foldl (· + ·) 0 / (bins.length : ℚ)

/-- The silence classifier (App.tsx line 105):
`isSilent = averageVolume < silenceThresholdRef.current * THRESHOLD_MULTIPLIER`.
`noiseFloor` is the calibrated baseline stored in `silenceThresholdRef`. -/
def classify (noiseFloor energy : ℚ) : Classification :=
  if energy < noiseFloor * THRESHOLD_MULTIPLIER then .silent else .sound

/-- The noise-floor computation when the calibration window expires
(App.tsx lines 208–213): mean of the collected samples if that mean is
positive, otherwise the fallback `1`; `1` when no samples were collected. -/
def noiseFloorOf (samples : List ℚ) : ℚ :=
  if samples.length > 0 then
    let average : ℚ := samples.foldl (· + ·) 0 / (samples.length : ℚ)
    if average > 0 then average else 1
  else 1

/-- The arithmetic mean of a sample list, as written in the source. -/
def meanOf (samples : List ℚ) : ℚ :=
  samples.foldl (· + ·) 0 / (samples.length : ℚ)

/-- `cleanup` (App.tsx lines 74–87): cancel the animation frame, stop and drop
the media stream, close the audio context, drop the recorder and the buffered
chunks. It does not touch `silenceTimerRef`, `silenceThresholdRef`,
`analyserRef`, the recording state, the saved URL or the error message. -/
def cleanup (s : AppState) : AppState :=
  { s with animationScheduled := false, streamActive := false,
           audioContextOpen := false, mediaRecorder := none, chunks := 0 }

/-- The `setTimeout` callback in `runAudioAnalysis` (App.tsx lines 110–115)
becoming due: if the timeout is still scheduled and its deadline has been
reached at time `t`, it runs — pausing the recorder only if the recorder is
still in the `recording` state — and the handle goes dead, but
`silenceTimerRef` keeps holding it (the callback never nulls the ref). -/
def fireTimerIfDue (t : Nat) (s : AppState) : AppState × List SinkAction :=
  match s.silenceTimer with
  | none => (s, [])
  | some τ =>
    if τ.live ∧ τ.deadline ≤ t then
      if s.mediaRecorder = some MRState.recording then
        ({ s with silenceTimer := some ⟨τ.deadline, false⟩,
                  mediaRecorder := some MRState.paused,
                  recordingState := RecState.paused }, [SinkAction.pause])
      else ({ s with silenceTimer := some ⟨τ.deadline, false⟩ }, [])
    else (s, [])

/-- The body of one `runAudioAnalysis` frame callback (App.tsx lines 95–129)
at time `t`, where the current sample's energy is `e`. If no analyser is
attached or the state is `CALIBRATING`, the body only re-schedules itself.
Otherwise it classifies the sample and walks the recorder's if/else chain:
arm the silence timeout when recording and silent and no handle is held;
clear and null the handle when recording and not silent; resume immediately
when paused and not silent. -/
def analysisBody (t : Nat) (e : ℚ) (s : AppState) : AppState × List SinkAction :=
  if s.analyserSet = false ∨ s.recordingState = RecState.calibrating then (s, [])
  else
    match s.mediaRecorder with
    | none => (s, [])
    | some mr =>
      if mr = MRState.recording ∧ classify s.silenceThreshold e = .silent then
        match s.silenceTimer with
        | none =>
          ({ s with silenceTimer := some ⟨t + SILENCE_DETECTION_TIME_MS, true⟩ }, [])
        | some _ => (s, [])
      else if mr = MRState.recording ∧ classify s.silenceThreshold e ≠ .silent then
        match s.silenceTimer with
        | some _ => ({ s with silenceTimer := none }, [])
        | none => (s, [])
      else if mr = MRState.paused ∧ classify s.silenceThreshold e ≠ .silent then
        ({ s with mediaRecorder := some MRState.recording,
                  recordingState := RecState.recording }, [SinkAction.resume])
      else (s, [])

/-- The unconditional tail of `stopRecording` (App.tsx line 235):
`if (silenceTimerRef.current) clearTimeout(silenceTimerRef.current)` — the
timeout is descheduled but the ref is not nulled. -/
def clearSilenceTimeout (s : AppState) : AppState :=
  match s.silenceTimer with
  | some τ => { s with silenceTimer := some ⟨τ.deadline, false⟩ }
  | none => s

/-- `stopRecording` (App.tsx lines 230–236): stop the recorder and move to
`STOPPED` only when a recorder exists and the state is neither `IDLE` nor
`STOPPED`; then clear (but keep) any silence timeout handle. -/
def stopRecording (s : AppState) : AppState × List SinkAction :=
  if s.mediaRecorder.isSome ∧ s.recordingState ≠ RecState.idle ∧
      s.recordingState ≠ RecState.stopped then
    (clearSilenceTimeout { s with mediaRecorder := some MRState.inactive,
                                  recordingState := RecState.stopped },
     [SinkAction.stop])
  else (clearSilenceTimeout s, [])

/-- `handleReset` (App.tsx lines 238–243): unconditionally go to `IDLE`, drop
the saved URL and the error message, and run `cleanup`. -/
def handleReset (s : AppState) : AppState :=
  cleanup { s with recordingState := RecState.idle, videoUrl := false,
                   errorMsg := none }

/-- The error classification in the `catch` of `startCalibration`
(App.tsx lines 220–224): `OverconstrainedError` yields the orientation
message, everything else the generic access message. -/
def errMsgFor : AcqError → ErrMsg
  | .overconstrained => .orientationUnsupported
  | .deviceUnavailable => .cameraMicAccess

/-- `startCalibration` up to the point where the calibration timers are armed
(App.tsx lines 157–227), with the outcome of resource acquisition
(`getUserMedia` and audio-graph construction) passed in explicitly. The
synchronous prefix enters `CALIBRATING` and clears the error, the saved URL
and the chunk buffer; on success the stream, audio context and analyser are
attached; on failure the classified error message is set, the state reverts
to `IDLE` and `cleanup` releases whatever was acquired. -/
def startCalibration (s : AppState) (acq : Except AcqError Unit) : AppState :=
  let s1 := { s with recordingState := RecState.calibrating, errorMsg := none,
                     videoUrl := false, chunks := 0 }
  match acq with
  | .ok _ => { s1 with streamActive := true, audioContextOpen := true,
                       analyserSet := true }
  | .error e => cleanup { s1 with errorMsg := some (errMsgFor e),
                                  recordingState := RecState.idle }

/-- `startActualRecording` (App.tsx lines 132–155): bail out if the stream is
gone; otherwise enter `RECORDING`, create and start the recorder, and start
the analysis loop. -/
def startActualRecording (s : AppState) : AppState × List SinkAction :=
  if s.streamActive = false then (s, [])
  else ({ s with recordingState := RecState.recording,
                 mediaRecorder := some MRState.recording,
                 animationScheduled := true }, [SinkAction.start])

/-- The `setTimeout` body that ends the calibration window
(App.tsx lines 205–217): store the computed noise floor in
`silenceThresholdRef`, then call `startActualRecording`. -/
def calibrationComplete (samples : List ℚ) (s : AppState) :
    AppState × List SinkAction :=
  startActualRecording { s with silenceThreshold := noiseFloorOf samples }

/-- An external event hitting the controller while the analysis loop runs: a
frame callback with a sample of energy `e`, a stop-button press, or a reset
press. -/
inductive Ev where
  | sample (e : ℚ)
  | stopReq
  | resetReq
deriving Repr

/-- One event-loop turn at time `tev.1`: any due silence timeout fires first,
then the event itself is processed. -/
def stepEv (s : AppState) (tev : Nat × Ev) : AppState × List SinkAction :=
  let f := fireTimerIfDue tev.1 s
  match tev.2 with
  | .sample e =>
    let r := analysisBody tev.1 e f.1
    (r.1, f.2 ++ r.2)
  | .stopReq =>
    let r := stopRecording f.1
    (r.1, f.2 ++ r.2)
  | .resetReq => (handleReset f.1, f.2)

/-- Run a time-ordered list of events, collecting every sink call issued. -/
def runEvents (s : AppState) (evs : List (Nat × Ev)) :
    AppState × List SinkAction :=
  match evs with
  | [] => (s, [])
  | tev :: rest =>
    let r := stepEv s tev
    let r2 := runEvents r.1 rest
    (r2.1, r.2 ++ r2.2)

/-- Run the events and then let time advance to `tEnd`, so a silence timeout
due by `tEnd` still fires even with no further frame callback. -/
def runTrace (s : AppState) (evs : List (Nat × Ev)) (tEnd : Nat) :
    AppState × List SinkAction :=
  let r := runEvents s evs
  let f := fireTimerIfDue tEnd r.1
  (f.1, r.2 ++ f.2)

/-- The precondition a `MediaRecorder` imposes on a call: `pause` requires the
recording state, `resume` the paused state (the states the spec's safety
clause is about). -/
def sinkPre (mr : Option MRState) (a : SinkAction) : Bool :=
  match a with
  | .pause => decide (mr = some MRState.recording)
  | .resume => decide (mr = some MRState.paused)
  | .start => true
  | .stop => true

/-- The sink state after a call. -/
def applySink (_mr : Option MRState) (a : SinkAction) : Option MRState :=
  match a with
  | .pause => some MRState.paused
  | .resume => some MRState.recording
  | .start => some MRState.recording
  | .stop => some MRState.inactive

/-- A call sequence is legal from sink state `mr` when every `pause` is issued
with the sink recording and every `resume` with the sink paused. -/
def pauseResumeLegal (mr : Option MRState) (l : List SinkAction) : Bool :=
  match l with
  | [] => true
  | a :: rest => sinkPre mr a && pauseResumeLegal (applySink mr a) rest

/-- The freshly mounted component: `IDLE`, no refs populated,
`silenceThresholdRef` initialised to `0`. -/
def initialApp : AppState :=
  { recordingState := .idle, videoUrl := false, errorMsg := none,
    mediaRecorder := none, chunks := 0, streamActive := false,
    audioContextOpen := false, analyserSet := false, silenceTimer := none,
    silenceThreshold := 0, animationScheduled := false }

/-- The state right after `startCalibration` succeeds from the initial state. -/
def calibratingSession : AppState := startCalibration initialApp (Except.ok ())

/-- A live recording session: recorder running, analyser attached, calibrated
noise floor `10` (so the silence threshold is `18`), no timer handle held. -/
def recordingSession : AppState :=
  { recordingState := .recording, videoUrl := false, errorMsg := none,
    mediaRecorder := some .recording, chunks := 0, streamActive := true,
    audioContextOpen := true, analyserSet := true, silenceTimer := none,
    silenceThreshold := 10, animationScheduled := true }

/-- A paused session holding the stale handle of the timeout that fired to
cause the pause. -/
def pausedSession : AppState :=
  { recordingSession with recordingState := .paused,
                          mediaRecorder := some .paused,
                          silenceTimer := some ⟨500, false⟩ }

/-- A trace over `recordingSession` (energy `0` is silent, `100` is sound):
silence from `t = 0` pauses at the 500 ms deadline (processed at `t = 600`);
a sound sample at `t = 650` resumes; then uninterrupted silence from `t = 700`
through `t = 1400` — a 700 ms silent stretch while recording. -/
def staleTimerTrace : List (Nat × Ev) :=
  [(0, .sample 0), (600, .sample 0), (650, .sample 100),
   (700, .sample 0), (1300, .sample 0)]

/-! ## Theorems -/

theorem noiseFloorOf_eq (samples : List ℚ) :
    noiseFloorOf samples =
      if samples.length > 0 then (if meanOf samples > 0 then meanOf samples else 1)
      else 1 := rfl

/-- **C3.** For every live sample, classification is the pure comparison of the
sample's energy — the mean of the frequency-bin magnitudes — against
`NoiseFloor × THRESHOLD_MULTIPLIER` (= 1.8): `Silent` iff the energy is
strictly below the threshold, and a sample exactly at the threshold is
`Sound`. -/
theorem classify_silent_iff (noiseFloor : ℚ) (bins : List ℚ) :
    (classify noiseFloor (averageVolume bins) = .silent ↔
      averageVolume bins < noiseFloor * THRESHOLD_MULTIPLIER) ∧
    classify noiseFloor (noiseFloor * THRESHOLD_MULTIPLIER) = .sound := by
  constructor
  · unfold classify
    split <;> simp_all
  · unfold classify
    simp

/-- **C4, counterexample.** The claim states that for a non-empty calibration
sample set with mean `m`, the noise floor equals `max m 1`. The code instead
keeps any strictly positive mean: for the single sample `1/2` the mean is
`1/2 > 0`, so the code yields `1/2`, while `max (1/2) 1 = 1`. -/
theorem noiseFloor_not_max_floor :
    noiseFloorOf [(1 : ℚ)/2] = 1/2 ∧ max ((1 : ℚ)/2) 1 = 1 ∧
      noiseFloorOf [(1 : ℚ)/2] ≠ max ((1 : ℚ)/2) 1 := by
  refine ⟨?_, ?_, ?_⟩ <;> norm_num [noiseFloorOf]

/-- **C4, amended.** When the calibration window expires with non-empty
samples, the noise floor is the arithmetic mean when that mean is positive and
the fallback `1` otherwise (the floor applies only to a non-positive mean, not
to means in `(0, 1)`); with no samples it is the fallback `1`. -/
theorem noiseFloorOf_spec (samples : List ℚ) (hne : samples ≠ []) :
    (0 < meanOf samples → noiseFloorOf samples = meanOf samples) ∧
    (meanOf samples ≤ 0 → noiseFloorOf samples = 1) ∧
    noiseFloorOf [] = 1 := by
  have hlen : samples.length > 0 := List.length_pos.mpr hne
  refine ⟨?_, ?_, rfl⟩ <;> intro h <;>
    simp only [noiseFloorOf, meanOf] at * <;>
    rw [if_pos hlen]
  · rw [if_pos h]
  · rw [if_neg (by exact not_lt.mpr h)]

/-- Witness for `noiseFloorOf_spec` at the concrete sample set `[2, 4]`. -/
theorem noiseFloorOf_spec_witness : noiseFloorOf [(2 : ℚ), 4] = meanOf [(2 : ℚ), 4] :=
  (noiseFloorOf_spec [(2 : ℚ), 4] (by simp)).1 (by norm_num [meanOf])

/-- **C5.** For every calibration sample set with non-negative values, empty or
not, the computed noise floor is strictly positive. -/
theorem noiseFloorOf_pos (samples : List ℚ) (_h : ∀ x ∈ samples, 0 ≤ x) :
    0 < noiseFloorOf samples := by
  unfold noiseFloorOf
  split
  · dsimp only
    split
    · assumption
    · norm_num
  · norm_num

/-- Witness for `noiseFloorOf_pos` at the all-zero sample set `[0, 0]`. -/
theorem noiseFloorOf_pos_witness : 0 < noiseFloorOf [(0 : ℚ), 0] :=
  noiseFloorOf_pos [(0 : ℚ), 0] (by norm_num)

/-- **C9, counterexample.** The claim says raising the threshold never turns a
`Sound` classification into `Silent`. It does: energy `2` is `Sound` at noise
floor `1` (threshold `1.8`) but `Silent` at the raised noise floor `2`
(threshold `3.6`), with `1 ≤ 2`. -/
theorem classify_raise_turns_sound_silent :
    (1 : ℚ) ≤ 2 ∧ classify 1 2 = .sound ∧ classify 2 2 = .silent := by
  refine ⟨by norm_num, ?_, ?_⟩ <;> norm_num [classify, THRESHOLD_MULTIPLIER]

/-- **C9, amended.** Classification is monotone in the threshold in the
opposite direction: lowering the noise floor (hence the derived
SilenceThreshold) never turns a `Sound` classification into `Silent` for the
same sample — equivalently, whatever is `Sound` at the higher threshold is
`Sound` at the lower one — while raising it may do so. -/
theorem classify_mono (nf₁ nf₂ e : ℚ) (hle : nf₁ ≤ nf₂)
    (h : classify nf₂ e = .sound) : classify nf₁ e = .sound := by
  unfold classify at *
  split at h
  · exact absurd h (by simp)
  · rename_i hnot
    rw [if_neg]
    intro hlt
    exact hnot (lt_of_lt_of_le hlt
      (mul_le_mul_of_nonneg_right hle (by norm_num [THRESHOLD_MULTIPLIER])))

/-- Witness for `classify_mono`: energy `100` is `Sound` at noise floor `2`,
hence also at noise floor `1`. -/
theorem classify_mono_witness : classify (1 : ℚ) 100 = .sound :=
  classify_mono 1 2 100 (by norm_num)
    (by norm_num [classify, THRESHOLD_MULTIPLIER])

/-- **C8.** When resource acquisition fails during `Idle → Calibrating`, the
controller reverts to `Idle`, the stream, audio context, recorder and chunk
buffer are released, and the reported error is the classification of the
failure — with the constraint-unsupported and device-unavailable
classifications distinct. No further transition is produced (no retry). -/
theorem startCalibration_failure (s : AppState) (e : AcqError) :
    (startCalibration s (.error e)).recordingState = RecState.idle ∧
    (startCalibration s (.error e)).errorMsg = some (errMsgFor e) ∧
    (startCalibration s (.error e)).streamActive = false ∧
    (startCalibration s (.error e)).audioContextOpen = false ∧
    (startCalibration s (.error e)).mediaRecorder = none ∧
    (startCalibration s (.error e)).chunks = 0 ∧
    errMsgFor AcqError.overconstrained ≠ errMsgFor AcqError.deviceUnavailable :=
  ⟨rfl, rfl, rfl, rfl, rfl, rfl, by simp [errMsgFor]⟩

/-- **C10.** `handleReset` is unguarded: from every state it yields `Idle`
with the saved video URL and the error message cleared, and the stream, audio
context, recorder and buffered chunks released. -/
theorem handleReset_spec (s : AppState) :
    (handleReset s).recordingState = RecState.idle ∧
    (handleReset s).videoUrl = false ∧
    (handleReset s).errorMsg = none ∧
    (handleReset s).streamActive = false ∧
    (handleReset s).audioContextOpen = false ∧
    (handleReset s).mediaRecorder = none ∧
    (handleReset s).chunks = 0 :=
  ⟨rfl, rfl, rfl, rfl, rfl, rfl, rfl⟩

/-- **C7, counterexample.** During calibration the recorder does not exist
yet, so `stopRecording`'s guard fails: invoked on the state reached by a
successful `startCalibration`, it leaves the state `Calibrating` (not `Idle`)
and the acquired stream alive. -/
theorem stopRecording_calibrating_cex :
    calibratingSession.recordingState = RecState.calibrating ∧
    (stopRecording calibratingSession).1.recordingState = RecState.calibrating ∧
    (stopRecording calibratingSession).1.recordingState ≠ RecState.idle ∧
    (stopRecording calibratingSession).1.streamActive = true := by
  decide

/-- **C7, amended.** A stop request received while in `Calibrating` is
ignored: with no recorder created and no live silence timer (as holds
throughout calibration — at most a dead handle from a previous session
remains), `stopRecording` leaves the state unchanged — still `Calibrating`,
nothing released — and issues no sink call; the calibration window later
completes normally, computing the noise floor and starting the sink. -/
theorem stopRecording_calibrating_noop (s : AppState)
    (hc : s.recordingState = RecState.calibrating)
    (hmr : s.mediaRecorder = none)
    (ht : s.silenceTimer = none ∨ ∃ d, s.silenceTimer = some ⟨d, false⟩) :
    (stopRecording s).1 = s ∧ (stopRecording s).2 = [] ∧
    (stopRecording s).1.recordingState = RecState.calibrating := by
  have hns : ¬ (s.mediaRecorder.isSome ∧ s.recordingState ≠ RecState.idle ∧
      s.recordingState ≠ RecState.stopped) := by
    simp [hmr]
  have hclear : clearSilenceTimeout s = s := by
    unfold clearSilenceTimeout
    rcases ht with ht | ⟨d, ht⟩ <;> rw [ht]
    obtain ⟨rs, vu, em, mr, ch, sa, ao, an, st, th, ans⟩ := s
    simp only at ht
    subst ht
    rfl
  refine ⟨?_, ?_, ?_⟩ <;> unfold stopRecording <;> rw [if_neg hns, hclear]
  exact hc

/-- Witness for `stopRecording_calibrating_noop` at the concrete calibrating
session. -/
theorem stopRecording_calibrating_noop_witness :
    (stopRecording calibratingSession).1 = calibratingSession :=
  (stopRecording_calibrating_noop calibratingSession rfl rfl (Or.inl rfl)).1

/-- **C2.** From every state in which the recorder is paused (with the
analyser attached and the state not `Calibrating`, as holds whenever the
loop observes a paused recorder), a single `Sound` classification — one
sample whose energy is at or above the threshold — moves the controller to
`Recording` and issues exactly one `resume` on the sink in that same
evaluation tick, with no debounce. -/
theorem paused_single_sound_resumes (s : AppState) (t : Nat) (e : ℚ)
    (hmr : s.mediaRecorder = some MRState.paused)
    (han : s.analyserSet = true)
    (hcal : s.recordingState ≠ RecState.calibrating)
    (hsnd : classify s.silenceThreshold e = Classification.sound) :
    (stepEv s (t, Ev.sample e)).1.recordingState = RecState.recording ∧
    (stepEv s (t, Ev.sample e)).1.mediaRecorder = some MRState.recording ∧
    (stepEv s (t, Ev.sample e)).2 = [SinkAction.resume] := by
  obtain ⟨rs, vu, em, mr, ch, sa, ao, an, st, th, ans⟩ := s
  simp only at hmr han hcal hsnd
  subst hmr han
  rcases st with _ | τ
  · simp +decide [stepEv, fireTimerIfDue, analysisBody, hcal, hsnd]
  · by_cases hd : τ.live ∧ τ.deadline ≤ t <;>
      simp +decide [stepEv, fireTimerIfDue, analysisBody, hcal, hsnd, hd]

/-- Witness for `paused_single_sound_resumes`: a sound sample of energy `100`
resumes the concrete paused session. -/
theorem paused_single_sound_resumes_witness :
    (stepEv pausedSession (1000, Ev.sample 100)).1.recordingState =
      RecState.recording :=
  (paused_single_sound_resumes pausedSession 1000 100 rfl rfl (by decide)
    (by norm_num [pausedSession, recordingSession, classify,
      THRESHOLD_MULTIPLIER])).1

theorem pauseResumeLegal_append (a b : List SinkAction) (mr : Option MRState) :
    pauseResumeLegal mr (a ++ b) =
      (pauseResumeLegal mr a && pauseResumeLegal (a.foldl applySink mr) b) := by
  induction a generalizing mr with
  | nil => simp [pauseResumeLegal]
  | cons x xs ih => simp [pauseResumeLegal, ih, Bool.and_assoc]

theorem fireTimerIfDue_shape (t : Nat) (s : AppState) :
    pauseResumeLegal s.mediaRecorder (fireTimerIfDue t s).2 = true ∧
    (fireTimerIfDue t s).1.mediaRecorder =
      (fireTimerIfDue t s).2.foldl applySink s.mediaRecorder := by
  obtain ⟨rs, vu, em, mr, ch, sa, ao, an, st, th, ans⟩ := s
  rcases st with _ | τ
  · simp [fireTimerIfDue, pauseResumeLegal]
  · by_cases hd : τ.live ∧ τ.deadline ≤ t
    · by_cases hmr : mr = some MRState.recording
      · simp [fireTimerIfDue, pauseResumeLegal, sinkPre, applySink, hd, hmr]
      · simp [fireTimerIfDue, pauseResumeLegal, hd, hmr]
    · simp [fireTimerIfDue, pauseResumeLegal, hd]

theorem fireTimerIfDue_none (t : Nat) (s : AppState)
    (h : s.mediaRecorder = none) : (fireTimerIfDue t s).2 = [] := by
  obtain ⟨rs, vu, em, mr, ch, sa, ao, an, st, th, ans⟩ := s
  simp only at h
  subst h
  rcases st with _ | τ
  · simp [fireTimerIfDue]
  · by_cases hd : τ.live ∧ τ.deadline ≤ t <;>
      simp +decide [fireTimerIfDue, hd]

theorem analysisBody_shape (t : Nat) (e : ℚ) (s : AppState) :
    pauseResumeLegal s.mediaRecorder (analysisBody t e s).2 = true ∧
    (analysisBody t e s).1.mediaRecorder =
      (analysisBody t e s).2.foldl applySink s.mediaRecorder := by
  obtain ⟨rs, vu, em, mr, ch, sa, ao, an, st, th, ans⟩ := s
  by_cases hg : an = false ∨ rs = RecState.calibrating
  · simp [analysisBody, hg, pauseResumeLegal]
  · rcases mr with _ | m
    · simp [analysisBody, hg, pauseResumeLegal]
    · by_cases h1 : m = MRState.recording ∧ classify th e = .silent
      · rcases st with _ | τ <;> simp [analysisBody, hg, h1, pauseResumeLegal]
      · by_cases h2 : m = MRState.recording ∧ classify th e ≠ .silent
        · rcases st with _ | τ <;>
            simp [analysisBody, hg, h1, h2, pauseResumeLegal]
        · by_cases h3 : m = MRState.paused ∧ classify th e ≠ .silent
          · simp [analysisBody, hg, h1, h2, h3, pauseResumeLegal, sinkPre,
              applySink, h3.1]
          · simp [analysisBody, hg, h1, h2, h3, pauseResumeLegal]

theorem clearSilenceTimeout_mediaRecorder (s : AppState) :
    (clearSilenceTimeout s).mediaRecorder = s.mediaRecorder := by
  unfold clearSilenceTimeout
  split <;> rfl

theorem stopRecording_shape (s : AppState) :
    pauseResumeLegal s.mediaRecorder (stopRecording s).2 = true ∧
    (stopRecording s).1.mediaRecorder =
      (stopRecording s).2.foldl applySink s.mediaRecorder := by
  unfold stopRecording
  split <;>
    simp [pauseResumeLegal, sinkPre, applySink, clearSilenceTimeout_mediaRecorder]

theorem stepEv_shape (s : AppState) (tev : Nat × Ev) :
    pauseResumeLegal s.mediaRecorder (stepEv s tev).2 = true ∧
    ((stepEv s tev).1.mediaRecorder =
        (stepEv s tev).2.foldl applySink s.mediaRecorder ∨
      (stepEv s tev).1.mediaRecorder = none) := by
  obtain ⟨t, ev⟩ := tev
  have hf := fireTimerIfDue_shape t s
  cases ev with
  | sample e =>
    have hb := analysisBody_shape t e (fireTimerIfDue t s).1
    refine ⟨?_, Or.inl ?_⟩
    · simp only [stepEv, pauseResumeLegal_append]
      rw [hf.1, Bool.true_and, ← hf.2]
      exact hb.1
    · simp only [stepEv, List.foldl_append]
      rw [← hf.2]
      exact hb.2
  | stopReq =>
    have hb := stopRecording_shape (fireTimerIfDue t s).1
    refine ⟨?_, Or.inl ?_⟩
    · simp only [stepEv, pauseResumeLegal_append]
      rw [hf.1, Bool.true_and, ← hf.2]
      exact hb.1
    · simp only [stepEv, List.foldl_append]
      rw [← hf.2]
      exact hb.2
  | resetReq =>
    refine ⟨?_, Or.inr rfl⟩
    simp only [stepEv]
    exact hf.1

theorem stepEv_none (s : AppState) (tev : Nat × Ev)
    (h : s.mediaRecorder = none) :
    (stepEv s tev).2 = [] ∧ (stepEv s tev).1.mediaRecorder = none := by
  obtain ⟨t, ev⟩ := tev
  obtain ⟨rs, vu, em, mr, ch, sa, ao, an, st, th, ans⟩ := s
  simp only at h
  subst h
  cases ev with
  | sample e =>
    by_cases hg : an = false ∨ rs = RecState.calibrating
    · rcases st with _ | τ
      · simp [stepEv, fireTimerIfDue, analysisBody, hg]
      · by_cases hd : τ.live ∧ τ.deadline ≤ t <;>
          simp +decide [stepEv, fireTimerIfDue, analysisBody, hg, hd]
    · rcases st with _ | τ
      · simp [stepEv, fireTimerIfDue, analysisBody, hg]
      · by_cases hd : τ.live ∧ τ.deadline ≤ t <;>
          simp +decide [stepEv, fireTimerIfDue, analysisBody, hg, hd]
  | stopReq =>
    rcases st with _ | τ
    · simp [stepEv, fireTimerIfDue, stopRecording, clearSilenceTimeout]
    · by_cases hd : τ.live ∧ τ.deadline ≤ t <;>
        simp +decide [stepEv, fireTimerIfDue, stopRecording,
          clearSilenceTimeout, hd]
  | resetReq =>
    rcases st with _ | τ
    · simp [stepEv, fireTimerIfDue, handleReset, cleanup]
    · by_cases hd : τ.live ∧ τ.deadline ≤ t <;>
        simp +decide [stepEv, fireTimerIfDue, handleReset, cleanup, hd]

theorem runEvents_shape (evs : List (Nat × Ev)) (s : AppState)
    (mr : Option MRState) (h : s.mediaRecorder = mr ∨ s.mediaRecorder = none) :
    pauseResumeLegal mr (runEvents s evs).2 = true ∧
    ((runEvents s evs).1.mediaRecorder =
        (runEvents s evs).2.foldl applySink mr ∨
      (runEvents s evs).1.mediaRecorder = none) := by
  induction evs generalizing s mr with
  | nil => simpa [runEvents, pauseResumeLegal] using h
  | cons tev rest ih =>
    rcases h with h | h
    · subst h
      have hs := stepEv_shape s tev
      have ihr := ih (stepEv s tev).1
        ((stepEv s tev).2.foldl applySink s.mediaRecorder) hs.2
      constructor
      · simp only [runEvents, pauseResumeLegal_append]
        rw [hs.1, Bool.true_and]
        exact ihr.1
      · simp only [runEvents, List.foldl_append]
        exact ihr.2
    · have hn := stepEv_none s tev h
      have ihr := ih (stepEv s tev).1 mr (Or.inr hn.2)
      constructor
      · simp only [runEvents, hn.1, List.nil_append]
        exact ihr.1
      · simp only [runEvents, hn.1, List.nil_append]
        exact ihr.2

theorem runTrace_legal (s : AppState) (evs : List (Nat × Ev)) (tEnd : Nat) :
    pauseResumeLegal s.mediaRecorder (runTrace s evs tEnd).2 = true := by
  have hr := runEvents_shape evs s s.mediaRecorder (Or.inl rfl)
  rcases hr.2 with h2 | h2
  · have hf := fireTimerIfDue_shape tEnd (runEvents s evs).1
    simp only [runTrace, pauseResumeLegal_append]
    rw [hr.1, Bool.true_and, ← h2]
    exact hf.1
  · have hf := fireTimerIfDue_none tEnd (runEvents s evs).1 h2
    simp only [runTrace, hf, List.append_nil]
    exact hr.1

/-- **C6.** In every execution of the event loop — from any state, over any
time-ordered event sequence of samples, stop requests and reset requests,
with any final time — the sequence of sink calls issued is legal: every
`pause` (including the deferred one the silence timeout performs at expiry)
is issued with the sink in the recording state, and every `resume` with the
sink in the paused state. Moreover the remaining controller entry points
issue no `pause` or `resume` at all: `stopRecording` issues at most `stop`,
and the calibration-completion path at most `start` (`startCalibration`
itself, modelled as returning a state, issues no sink call). -/
theorem sink_calls_guarded :
    (∀ (s : AppState) (evs : List (Nat × Ev)) (tEnd : Nat),
      pauseResumeLegal s.mediaRecorder (runTrace s evs tEnd).2 = true) ∧
    (∀ s : AppState, SinkAction.pause ∉ (stopRecording s).2 ∧
      SinkAction.resume ∉ (stopRecording s).2) ∧
    (∀ (samples : List ℚ) (s : AppState),
      SinkAction.pause ∉ (calibrationComplete samples s).2 ∧
      SinkAction.resume ∉ (calibrationComplete samples s).2) := by
  refine ⟨fun s evs tEnd => runTrace_legal s evs tEnd, ?_, ?_⟩
  · intro s
    unfold stopRecording
    split <;> simp
  · intro samples s
    unfold calibrationComplete startActualRecording
    split <;> simp

/-- **C1.** The code violates the claim: the timeout callback that performs
the silence-triggered pause never nulls `silenceTimerRef`, so after the first
pause/resume cycle the stale handle blocks re-arming. In `staleTimerTrace`
the first 500 ms of silence pauses as specified and a sound sample resumes,
but the following 700 ms of uninterrupted silence while recording
(`t = 700 … 1400`) triggers no pause at all: exactly one `pause` is ever
issued and the trace ends still `Recording`. -/
theorem silence_pause_lost_after_resume :
    (runTrace recordingSession staleTimerTrace 1400).2 =
      [SinkAction.pause, SinkAction.resume] ∧
    (runTrace recordingSession staleTimerTrace 1400).1.recordingState =
      RecState.recording ∧
    (runTrace recordingSession staleTimerTrace 1400).1.mediaRecorder =
      some MRState.recording := by
  have hsil : classify 10 0 = .silent := by
    norm_num [classify, THRESHOLD_MULTIPLIER]
  have hsnd : classify 10 100 = .sound := by
    norm_num [classify, THRESHOLD_MULTIPLIER]
  simp +decide [runTrace, runEvents, stepEv, fireTimerIfDue, analysisBody,
    staleTimerTrace, recordingSession, SILENCE_DETECTION_TIME_MS, hsil, hsnd]

end JumpCut
